import Mathlib

/-!
Shallow embedding of `middleware.go` (package `mux`): middleware chains,
the named-logging middleware adapter, and the CORS method-aggregation
middleware.  HTTP handlers are modelled as state transformers on an
explicit response state (headers plus an event trace standing for the
log output and for instrumentation of handler calls); middleware
functions are handler transformers, exactly as in the Go source where
`MiddlewareFunc func(http.Handler) http.Handler`.
-/

set_option autoImplicit false

namespace Mux

/-- Response-side observable state of a request in flight: the response
headers (an association list modelling `http.Header`, where `Set`
replaces the value stored for a key) together with a trace of emitted
events.  A `log.Printf` call appends its formatted message to the
trace; instrumented handlers may also append markers, which lets
"handler X ran" be observed in a pure embedding. -/
structure RespState where
  headers : List (String × String)
  trace : List String
deriving DecidableEq, Repr

/-- Model of `http.Handler`: consumes a request and transforms the response state. -/
def Handler (Req : Type) : Type := Req → RespState → RespState

/-- Model of `MiddlewareFunc func(http.Handler) http.Handler`. -/
def MiddlewareFunc (Req : Type) : Type := Handler Req → Handler Req

/-- Model of `MiddlewareFuncWithLogging`: a `MiddlewareFunc` paired with a name,
used for diagnostic logging. -/
structure MiddlewareFuncWithLogging (Req : Type) where
  Handler : MiddlewareFunc Req
  Name : String

/-- The `middleware` interface has exactly two implementations in the
source: a bare `MiddlewareFunc` and a `MiddlewareFuncWithLogging`.
An element of a stored chain is one of the two. -/
inductive MiddlewareEntry (Req : Type) where
  | ofFunc : MiddlewareFunc Req → MiddlewareEntry Req
  | ofLogging : MiddlewareFuncWithLogging Req → MiddlewareEntry Req

/-- Embedding of `MiddlewareFuncWithLogging.Middleware`: passes to the wrapped
`MiddlewareFunc` an inner handler that logs
`"Executing middleware: <name>"` and then calls the original `handler`.
Mirrors

```
return mw.Handler(http.HandlerFunc(func(w, r) \x7b
    log.Printf("Executing middleware: %s", mw.Name)
    handler.ServeHTTP(w, r)
\x7d))
``` -/
def MiddlewareFuncWithLogging.Middleware {Req : Type}
    (mw : MiddlewareFuncWithLogging Req) (handler : Mux.Handler Req) : Mux.Handler Req :=
  mw.Handler (fun r st =>
    handler r { st with trace := st.trace ++ ["Executing middleware: " ++ mw.Name] })

/-- Outcome stored in `RouteMatch.MatchErr` after a `Route.Match` call:
`nil` (no error), `ErrMethodMismatch`, `ErrNotFound`, or any other
mismatch kind (host, query, ...). -/
inductive MatchErr where
  | noErr : MatchErr
  | methodMismatch : MatchErr
  | notFound : MatchErr
  | otherErr : MatchErr
deriving DecidableEq, Repr

/-- A `Route` as this file observes it: the matching engine's verdict
for a request (the boolean returned by `Match` together with the
`MatchErr` it stores in the `RouteMatch`), the result of `GetMethods`
(methods, or an error), and the route-level middleware chain. -/
structure Route (Req : Type) where
  matchFn : Req → Bool × MatchErr
  getMethods : Except String (List String)
  middlewares : List (MiddlewareEntry Req)

/-- A `Router`: its ordered route list and its middleware chain. -/
structure Router (Req : Type) where
  routes : List (Route Req)
  middlewares : List (MiddlewareEntry Req)

/-- Embedding of `Router.Use`: appends each function, in order, to the chain
(`for _, fn := range mwf \x7b r.middlewares = append(r.middlewares, fn) \x7d`). -/
def Router.Use {Req : Type} (r : Router Req) (mwf : List (MiddlewareFunc Req)) : Router Req :=
  { r with middlewares :=
      mwf.foldl (fun ms fn => ms ++ [MiddlewareEntry.ofFunc fn]) r.middlewares }

/-- Embedding of `Router.useInterface`: appends one `middleware` value to the chain. -/
def Router.useInterface {Req : Type} (r : Router Req) (mw : MiddlewareEntry Req) : Router Req :=
  { r with middlewares := r.middlewares ++ [mw] }

/-- Embedding of `Router.UseWithLogging`: wraps `mw` in a `MiddlewareFuncWithLogging`
with the given name and appends it through `useInterface`. -/
def Router.UseWithLogging {Req : Type} (r : Router Req) (name : String)
    (mw : MiddlewareFunc Req) : Router Req :=
  r.useInterface (MiddlewareEntry.ofLogging ⟨mw, name⟩)

/-- Embedding of `Route.Use`: appends each `MiddlewareFunc` to the route's chain
and returns the route. -/
def Route.Use {Req : Type} (r : Route Req) (mwf : List (MiddlewareFunc Req)) : Route Req :=
  { r with middlewares :=
      mwf.foldl (fun ms fn => ms ++ [MiddlewareEntry.ofFunc fn]) r.middlewares }

/-- Embedding of `Route.useInterface`: appends one `middleware` value to the
route's chain. -/
def Route.useInterface {Req : Type} (r : Route Req) (mw : MiddlewareEntry Req) : Route Req :=
  { r with middlewares := r.middlewares ++ [mw] }

/-- Embedding of `Route.UseWithLogging`: wraps `mw` in a `MiddlewareFuncWithLogging`
with the given name and appends it through `useInterface`. -/
def Route.UseWithLogging {Req : Type} (r : Route Req) (name : String)
    (mw : MiddlewareFunc Req) : Route Req :=
  r.useInterface (MiddlewareEntry.ofLogging ⟨mw, name⟩)

/-- The inclusion test of `getAllMethodsForRoute`:
`route.Match(req, &match) || match.MatchErr == ErrMethodMismatch`. -/
def routeIncluded {Req : Type} (rt : Route Req) (req : Req) : Bool :=
  (rt.matchFn req).1 || decide ((rt.matchFn req).2 = MatchErr.methodMismatch)

/-- The `for _, route := range r.routes` loop of `getAllMethodsForRoute`,
with `allMethods` as the accumulator.  A `GetMethods` failure aborts the
loop and is returned (Go: `return nil, err`); otherwise the methods are
appended and the loop continues. -/
def getAllMethodsLoop {Req : Type} (req : Req) :
    List (Route Req) → List String → Except String (List String)
  | [], allMethods => .ok allMethods
  | route :: rest, allMethods =>
    if routeIncluded route req then
      match route.getMethods with
      | .error e => .error e
      | .ok methods => getAllMethodsLoop req rest (allMethods ++ methods)
    else
      getAllMethodsLoop req rest allMethods

/-- Embedding of `getAllMethodsForRoute`: runs the loop over `r.routes`
starting from the empty (`nil`) method list. -/
def getAllMethodsForRoute {Req : Type} (r : Router Req) (req : Req) :
    Except String (List String) :=
  getAllMethodsLoop req r.routes []

/-- Model of `http.Header.Set`: replace the value stored for `k` by `v`
(first binding replaced in the association-list model; appended if
absent). -/
def setHeader : List (String × String) → String → String → List (String × String)
  | [], k, v => [(k, v)]
  | (k2, v2) :: rest, k, v =>
    if k2 = k then (k, v) :: rest else (k2, v2) :: setHeader rest k v

/-- Model of `http.Header.Get`: first value stored for `k`, if any. -/
def getHeader : List (String × String) → String → Option String
  | [], _ => none
  | (k2, v2) :: rest, k => if k2 = k then some v2 else getHeader rest k

/-- Body of `for _, v := range allMethods`: when `v == http.MethodOptions`
set `Access-Control-Allow-Methods` to the pre-joined method string. -/
def corsStep (joined : String) (s : RespState) (v : String) : RespState :=
  if v = "OPTIONS" then
    { s with headers := setHeader s.headers "Access-Control-Allow-Methods" joined }
  else s

/-- The header-setting phase of the handler built by
`CORSMethodMiddleware`: aggregate the methods; on success scan them and,
at each `OPTIONS` occurrence, set `Access-Control-Allow-Methods` to
`strings.Join(allMethods, ",")`; on aggregation error do nothing. -/
def corsSetHeaders {Req : Type} (r : Router Req) (req : Req) (st : RespState) : RespState :=
  match getAllMethodsForRoute r req with
  | .ok allMethods => allMethods.foldl (corsStep (String.intercalate "," allMethods)) st
  | .error _ => st

/-- Embedding of `CORSMethodMiddleware`: the returned `MiddlewareFunc` builds a
handler that performs the header-setting phase and then calls
`next.ServeHTTP(w, req)` on the same request and response state. -/
def CORSMethodMiddleware {Req : Type} (r : Router Req) : MiddlewareFunc Req :=
  fun next => fun req st => next req (corsSetHeaders r req st)

/-- Modelled from the spec: route registration (`Router.NewRoute` /
`Router.HandleFunc`) is not part of the embedded source file; per the
spec, a `Router` "owns an ordered list of Routes (registration order is
significant and preserved)", so registering appends the route to the
end of the router's route list. -/
def registerRoute {Req : Type} (r : Router Req) (rt : Route Req) : Router Req :=
  { r with routes := r.routes ++ [rt] }

/-- Returns `true` on `Except.ok` and `false` on `Except.error`. -/
def isOkE {ε α : Type} : Except ε α → Bool
  | .ok _ => true
  | .error _ => false

/-- The payload of an `Except.ok`, defaulting to `[]` on error (used
only to state aggregate characterisations where every relevant
`getMethods` is known to be `ok`). -/
def okMethods {ε : Type} : Except ε (List String) → List String
  | .ok ms => ms
  | .error _ => []

/-! ### Helper lemmas -/

theorem use_foldl {Req : Type} (l : List (MiddlewareFunc Req)) (acc : List (MiddlewareEntry Req)) :
    l.foldl (fun ms fn => ms ++ [MiddlewareEntry.ofFunc fn]) acc
      = acc ++ l.map MiddlewareEntry.ofFunc := by
  induction l generalizing acc with
  | nil => simp
  | cons fn rest ih => simp [List.foldl_cons, ih]

theorem getHeader_setHeader_self (hs : List (String × String)) (k v : String) :
    getHeader (setHeader hs k v) k = some v := by
  induction hs with
  | nil => simp [setHeader, getHeader]
  | cons p rest ih =>
    by_cases hk : p.1 = k
    · simp [setHeader, hk, getHeader]
    · simp [setHeader, hk, getHeader, ih]

theorem getHeader_setHeader_ne (hs : List (String × String)) (k v k2 : String)
    (h : k2 ≠ k) : getHeader (setHeader hs k v) k2 = getHeader hs k2 := by
  have hk2 : ¬k = k2 := fun hh => h hh.symm
  induction hs with
  | nil => simp [setHeader, getHeader, hk2]
  | cons p rest ih =>
    by_cases hk : p.1 = k
    · simp [setHeader, hk, getHeader, hk2]
    · simp [setHeader, hk, getHeader, ih]

theorem corsStep_trace (j : String) (s : RespState) (v : String) :
    (corsStep j s v).trace = s.trace := by
  by_cases hv : v = "OPTIONS" <;> simp [corsStep, hv]

theorem corsFold_trace (j : String) (ms : List String) (st : RespState) :
    (ms.foldl (corsStep j) st).trace = st.trace := by
  induction ms generalizing st with
  | nil => rfl
  | cons v rest ih => simp [List.foldl_cons, ih, corsStep_trace]

theorem corsFold_of_not_mem (j : String) (ms : List String) (st : RespState)
    (h : "OPTIONS" ∉ ms) : ms.foldl (corsStep j) st = st := by
  induction ms generalizing st with
  | nil => rfl
  | cons v rest ih =>
    have hv : v ≠ "OPTIONS" := fun hv => h (hv ▸ List.mem_cons_self v rest)
    have hrest : "OPTIONS" ∉ rest := fun hv => h (List.mem_cons_of_mem v hv)
    simp [List.foldl_cons, corsStep, hv, ih _ hrest]

theorem corsFold_getHeader_mem (j : String) (ms : List String) (st : RespState)
    (h : "OPTIONS" ∈ ms) :
    getHeader (ms.foldl (corsStep j) st).headers "Access-Control-Allow-Methods" = some j := by
  induction ms generalizing st with
  | nil => cases h
  | cons v rest ih =>
    by_cases hrest : "OPTIONS" ∈ rest
    · simp only [List.foldl_cons]
      exact ih _ hrest
    · have hv : v = "OPTIONS" := by
        rcases List.mem_cons.mp h with hh | hh
        · exact hh.symm
        · exact absurd hh hrest
      simp [List.foldl_cons, corsStep, hv, corsFold_of_not_mem j rest _ hrest,
        getHeader_setHeader_self]

theorem corsFold_frame (j : String) (ms : List String) (st : RespState) (k : String)
    (h : k ≠ "Access-Control-Allow-Methods") :
    getHeader (ms.foldl (corsStep j) st).headers k = getHeader st.headers k := by
  induction ms generalizing st with
  | nil => rfl
  | cons v rest ih =>
    by_cases hv : v = "OPTIONS"
    · simp [List.foldl_cons, corsStep, hv, ih, getHeader_setHeader_ne _ _ _ _ h]
    · simp [List.foldl_cons, corsStep, hv, ih]

theorem getAllMethodsLoop_acc {Req : Type} (req : Req) (l : List (Route Req))
    (acc : List String) :
    getAllMethodsLoop req l acc = (getAllMethodsLoop req l []).map (fun ms => acc ++ ms) := by
  induction l generalizing acc with
  | nil => simp [getAllMethodsLoop, Except.map]
  | cons route rest ih =>
    by_cases hinc : routeIncluded route req
    · cases hgm : route.getMethods with
      | error e => simp [getAllMethodsLoop, hinc, hgm, Except.map]
      | ok methods =>
        simp only [getAllMethodsLoop, hinc, if_true, hgm]
        rw [ih (acc ++ methods), ih ([] ++ methods)]
        cases getAllMethodsLoop req rest [] with
        | error e => simp [Except.map]
        | ok ms => simp [Except.map]
    · simp only [getAllMethodsLoop, hinc, if_false]
      exact ih acc

theorem getAllMethodsLoop_append {Req : Type} (req : Req) (l1 l2 : List (Route Req))
    (acc : List String) :
    getAllMethodsLoop req (l1 ++ l2) acc =
      match getAllMethodsLoop req l1 acc with
      | .ok ms => getAllMethodsLoop req l2 ms
      | .error e => .error e := by
  induction l1 generalizing acc with
  | nil => simp [getAllMethodsLoop]
  | cons route rest ih =>
    by_cases hinc : routeIncluded route req
    · cases hgm : route.getMethods with
      | error e => simp [getAllMethodsLoop, hinc, hgm]
      | ok methods => simp [getAllMethodsLoop, hinc, hgm, ih]
    · simp [getAllMethodsLoop, hinc, ih]

theorem getAllMethodsLoop_ok_char {Req : Type} (req : Req) (l : List (Route Req))
    (acc : List String)
    (h : ∀ rt ∈ l, routeIncluded rt req = true → isOkE rt.getMethods = true) :
    getAllMethodsLoop req l acc =
      .ok (acc ++ (l.filter (fun rt => routeIncluded rt req)).flatMap
        (fun rt => okMethods rt.getMethods)) := by
  induction l generalizing acc with
  | nil => simp [getAllMethodsLoop]
  | cons route rest ih =>
    have hrest : ∀ rt ∈ rest, routeIncluded rt req = true → isOkE rt.getMethods = true :=
      fun rt hm => h rt (List.mem_cons_of_mem route hm)
    by_cases hinc : routeIncluded route req
    · have hok : isOkE route.getMethods = true := h route (List.mem_cons_self route rest) hinc
      cases hgm : route.getMethods with
      | error e => rw [hgm] at hok; simp [isOkE] at hok
      | ok methods =>
        simp [getAllMethodsLoop, hinc, hgm, ih _ hrest, List.filter_cons, okMethods]
    · simp [getAllMethodsLoop, hinc, ih _ hrest, List.filter_cons]

theorem getAllMethodsLoop_error_of_find {Req : Type} (req : Req) (l : List (Route Req))
    (acc : List String) (rt : Route Req) (e : String)
    (hfind : l.find? (fun x => routeIncluded x req && !(isOkE x.getMethods)) = some rt)
    (he : rt.getMethods = .error e) :
    getAllMethodsLoop req l acc = .error e := by
  induction l generalizing acc with
  | nil => simp at hfind
  | cons route rest ih =>
    by_cases hp : (routeIncluded route req && !(isOkE route.getMethods)) = true
    · rw [List.find?_cons_of_pos rest hp] at hfind
      have hrt : route = rt := by injection hfind
      subst hrt
      rcases Bool.and_eq_true_iff.mp hp with ⟨hinc, hnok⟩
      simp [getAllMethodsLoop, hinc, he]
    · rw [List.find?_cons_of_neg rest hp] at hfind
      by_cases hinc : routeIncluded route req
      · cases hgm : route.getMethods with
        | error e2 =>
          exfalso
          apply hp
          simp [hinc, isOkE, hgm]
        | ok methods => simp [getAllMethodsLoop, hinc, hgm, ih _ hfind]
      · simp [getAllMethodsLoop, hinc, ih _ hfind]

/-! ### Concrete fixtures (routers, routes and requests used as witnesses) -/

/-- A concrete request type for witnesses: an HTTP method and a path. -/
structure TestRequest where
  method : String
  path : String
deriving DecidableEq, Repr

/-- A matching-engine behaviour for fixtures: the route matches requests
whose path equals `path`; on a path hit with a method outside `methods`
it reports `ErrMethodMismatch`, on a path miss it reports `ErrNotFound`. -/
def matchByPathMethods (path : String) (methods : List String) (req : TestRequest) :
    Bool × MatchErr :=
  if req.path = path then
    if methods.contains req.method then (true, MatchErr.noErr)
    else (false, MatchErr.methodMismatch)
  else (false, MatchErr.notFound)

/-- Fixture route: `\x7bpath: "/x", methods: ["GET"]\x7d`. -/
def routeGetX : Route TestRequest :=
  { matchFn := matchByPathMethods "/x" ["GET"]
    getMethods := .ok ["GET"]
    middlewares := [] }

/-- Fixture route: `\x7bpath: "/x", methods: ["OPTIONS", "POST"]\x7d`. -/
def routeOptionsX : Route TestRequest :=
  { matchFn := matchByPathMethods "/x" ["OPTIONS", "POST"]
    getMethods := .ok ["OPTIONS", "POST"]
    middlewares := [] }

/-- Fixture route on a different path that accepts every common method:
it must never contribute to an aggregation for `/x`. -/
def routeAllZ : Route TestRequest :=
  { matchFn := matchByPathMethods "/z" ["GET", "POST", "PUT", "DELETE", "OPTIONS", "HEAD"]
    getMethods := .ok ["GET", "POST", "PUT", "DELETE", "OPTIONS", "HEAD"]
    middlewares := [] }

/-- Fixture route on `/x` whose `GetMethods` fails. -/
def routeFailX : Route TestRequest :=
  { matchFn := matchByPathMethods "/x" ["PUT"]
    getMethods := .error "boom"
    middlewares := [] }

/-- Fixture route: `\x7bpath: "/x", methods: ["DELETE"]\x7d`, registered late. -/
def routeDeleteX : Route TestRequest :=
  { matchFn := matchByPathMethods "/x" ["DELETE"]
    getMethods := .ok ["DELETE"]
    middlewares := [] }

/-- Fixture request `OPTIONS /x`. -/
def reqOptionsX : TestRequest := { method := "OPTIONS", path := "/x" }

/-- Fixture router with the spec's scenario routes, in registration order. -/
def routerX : Router TestRequest :=
  { routes := [routeGetX, routeOptionsX], middlewares := [] }

/-- Fixture router that also carries a non-matching catch-all route. -/
def routerXZ : Router TestRequest :=
  { routes := [routeGetX, routeAllZ, routeOptionsX], middlewares := [] }

/-- Fixture router whose second route has a failing `GetMethods`. -/
def routerFail : Router TestRequest :=
  { routes := [routeGetX, routeFailX, routeOptionsX], middlewares := [] }

/-- Fixture router with no registered routes. -/
def emptyRouter : Router TestRequest := { routes := [], middlewares := [] }

/-- An empty response state. -/
def emptyResp : RespState := { headers := [], trace := [] }

/-- A terminal handler on `TestRequest` that does nothing. -/
def idHandlerT : Handler TestRequest := fun _ st => st

/-- An instrumented wrapped interceptor on `Unit` requests: its produced
handler records a marker at the start of its execution, then delegates. -/
def probeInterceptor : MiddlewareFunc Unit :=
  fun next => fun r st => next r { st with trace := st.trace ++ ["wrapped-handler-ran"] }

/-- The instrumented interceptor wrapped in a logging adapter named `n`. -/
def probeLogged : MiddlewareFuncWithLogging Unit :=
  { Handler := probeInterceptor, Name := "n" }

/-- A terminal handler on `Unit` requests that does nothing. -/
def idHandler : Handler Unit := fun _ st => st

/-! ### Claim theorems -/

/-- Claim C1: for every request and router, `getAllMethodsForRoute`
includes a route's methods in the aggregate iff the route's `Match`
succeeded or the resulting mismatch kind is exactly `ErrMethodMismatch`;
any other mismatch kind contributes nothing, and the aggregate is the
concatenation of the included routes' method lists in registration
order, duplicates kept. -/
theorem getAllMethodsForRoute_filter_spec {Req : Type} (r : Router Req) (req : Req)
    (h : ∀ rt ∈ r.routes, routeIncluded rt req = true → isOkE rt.getMethods = true) :
    getAllMethodsForRoute r req =
      .ok ((r.routes.filter (fun rt => routeIncluded rt req)).flatMap
        (fun rt => okMethods rt.getMethods)) := by
  simpa [getAllMethodsForRoute] using getAllMethodsLoop_ok_char req r.routes [] h

/-- Witness for C1: in a router holding `\x7b/x, [GET]\x7d`, a catch-all
route on `/z`, and `\x7b/x, [OPTIONS, POST]\x7d`, the request `OPTIONS /x`
aggregates `["GET", "OPTIONS", "POST"]`: the `/z` route, though it
accepts every method, contributes nothing. -/
theorem getAllMethodsForRoute_filter_spec_witness :
    getAllMethodsForRoute routerXZ reqOptionsX = .ok ["GET", "OPTIONS", "POST"]
    ∧ routeIncluded routeAllZ reqOptionsX = false := by
  have h := getAllMethodsForRoute_filter_spec routerXZ reqOptionsX (by decide)
  rw [h]
  exact ⟨rfl, rfl⟩

/-- Claim C2: when aggregation succeeds with aggregate `ms`, the CORS
header phase sets `Access-Control-Allow-Methods` to the comma-join of
`ms` (in collected order, no deduplication) exactly when `"OPTIONS" ∈ ms`,
and leaves the response state completely untouched otherwise. -/
theorem corsSetHeaders_options_spec {Req : Type} (r : Router Req) (req : Req)
    (st : RespState) (ms : List String) (h : getAllMethodsForRoute r req = .ok ms) :
    ("OPTIONS" ∈ ms →
        getHeader (corsSetHeaders r req st).headers "Access-Control-Allow-Methods"
          = some (String.intercalate "," ms))
    ∧ ("OPTIONS" ∉ ms → corsSetHeaders r req st = st) := by
  constructor
  · intro hm
    simp only [corsSetHeaders, h]
    exact corsFold_getHeader_mem _ ms st hm
  · intro hm
    simp only [corsSetHeaders, h]
    exact corsFold_of_not_mem _ ms st hm

/-- Witness for C2: the spec's scenario — routes `\x7b/x, [GET]\x7d` and
`\x7b/x, [OPTIONS, POST]\x7d` in that order, request `OPTIONS /x` — yields
header value `GET,OPTIONS,POST`. -/
theorem corsSetHeaders_options_spec_witness :
    getAllMethodsForRoute routerX reqOptionsX = .ok ["GET", "OPTIONS", "POST"]
    ∧ getHeader (corsSetHeaders routerX reqOptionsX emptyResp).headers
        "Access-Control-Allow-Methods" = some "GET,OPTIONS,POST" := by
  have hagg : getAllMethodsForRoute routerX reqOptionsX = .ok ["GET", "OPTIONS", "POST"] := rfl
  have h := (corsSetHeaders_options_spec routerX reqOptionsX emptyResp _ hagg).1 (by decide)
  rw [h]
  exact ⟨hagg, rfl⟩

/-- Claim C3: if `GetMethods` fails for an included route (the first such
route in registration order), the whole aggregation aborts with exactly
that error and no partial list; at the middleware boundary the error is
absorbed: no header is set and the request still reaches `next` with the
response state unchanged. -/
theorem getAllMethods_error_aborts {Req : Type} (r : Router Req) (req : Req)
    (rt : Route Req) (e : String)
    (hfind : r.routes.find? (fun x => routeIncluded x req && !(isOkE x.getMethods)) = some rt)
    (he : rt.getMethods = .error e) :
    getAllMethodsForRoute r req = .error e
    ∧ (∀ st, corsSetHeaders r req st = st)
    ∧ (∀ (next : Handler Req) (st : RespState),
        CORSMethodMiddleware r next req st = next req st) := by
  have herr : getAllMethodsForRoute r req = .error e :=
    getAllMethodsLoop_error_of_find req r.routes [] rt e hfind he
  refine ⟨herr, fun st => ?_, fun next st => ?_⟩
  · simp [corsSetHeaders, herr]
  · simp [CORSMethodMiddleware, corsSetHeaders, herr]

/-- Witness for C3: with `\x7b/x, [GET]\x7d`, a failing `/x` route, and
`\x7b/x, [OPTIONS, POST]\x7d`, the aggregation for `OPTIONS /x` returns the
error `boom` and the header phase is the identity. -/
theorem getAllMethods_error_aborts_witness :
    getAllMethodsForRoute routerFail reqOptionsX = .error "boom"
    ∧ corsSetHeaders routerFail reqOptionsX emptyResp = emptyResp := by
  have h := getAllMethods_error_aborts routerFail reqOptionsX routeFailX "boom" rfl rfl
  exact ⟨h.1, h.2.1 emptyResp⟩

/-- Claim C4: whatever the aggregation outcome, the handler built by
`CORSMethodMiddleware` calls `next` exactly once, on the same request
and on the response state it prepared: the handler factors as a single
application of `next`; the header phase never touches the trace; and an
instrumented `next` that appends a marker produces the original trace
extended by exactly one marker. -/
theorem CORSMethodMiddleware_calls_next_once {Req : Type} (r : Router Req)
    (next : Handler Req) (req : Req) (st : RespState) :
    CORSMethodMiddleware r next req st = next req (corsSetHeaders r req st)
    ∧ (corsSetHeaders r req st).trace = st.trace
    ∧ ∀ t : String,
        CORSMethodMiddleware r (fun _ s => { s with trace := s.trace ++ [t] }) req st
          = { corsSetHeaders r req st with trace := st.trace ++ [t] } := by
  have htr : (corsSetHeaders r req st).trace = st.trace := by
    cases hagg : getAllMethodsForRoute r req with
    | ok ms => simp [corsSetHeaders, hagg, corsFold_trace]
    | error e => simp [corsSetHeaders, hagg]
  refine ⟨rfl, htr, fun t => ?_⟩
  simp [CORSMethodMiddleware, htr]

/-- Claim C5: `Use` on a Router or a Route appends its arguments to that
container's chain in argument order and is additive across calls:
registering `l1` then `l2` yields the old chain followed by `l1` then
`l2`, with nothing removed or reordered. -/
theorem Use_additive {Req : Type} (r : Router Req) (rt : Route Req)
    (l1 l2 : List (MiddlewareFunc Req)) :
    ((r.Use l1).Use l2).middlewares
        = r.middlewares ++ l1.map MiddlewareEntry.ofFunc ++ l2.map MiddlewareEntry.ofFunc
    ∧ ((rt.Use l1).Use l2).middlewares
        = rt.middlewares ++ l1.map MiddlewareEntry.ofFunc ++ l2.map MiddlewareEntry.ofFunc := by
  constructor <;> simp [Router.Use, Route.Use, use_foldl]

/-- Claim C6: `UseWithLogging name mw` appends exactly one entry — a
`MiddlewareFuncWithLogging` wrapping `mw` with that name — to the very
chain `Use` appends to, for Routers and Routes alike, leaving all
previously appended entries unchanged; after a plain `Use l` the chain is
the old chain, then `l`, then that single logging entry. -/
theorem UseWithLogging_appends_one {Req : Type} (r : Router Req) (rt : Route Req)
    (name : String) (mw : MiddlewareFunc Req) (l : List (MiddlewareFunc Req)) :
    (r.UseWithLogging name mw).middlewares
        = r.middlewares ++ [MiddlewareEntry.ofLogging ⟨mw, name⟩]
    ∧ (rt.UseWithLogging name mw).middlewares
        = rt.middlewares ++ [MiddlewareEntry.ofLogging ⟨mw, name⟩]
    ∧ ((r.Use l).UseWithLogging name mw).middlewares
        = r.middlewares ++ l.map MiddlewareEntry.ofFunc
            ++ [MiddlewareEntry.ofLogging ⟨mw, name⟩] := by
  refine ⟨rfl, rfl, ?_⟩
  simp [Router.UseWithLogging, Router.useInterface, Router.Use, use_foldl]

/-- Claim C7 counterexample: the claim says the log record is emitted
before the wrapped interceptor's produced handler executes.  With a
wrapped interceptor whose produced handler records a marker at the start
of its execution and then delegates, the adapter produces the trace
`["wrapped-handler-ran", "Executing middleware: n"]`: the marker comes
first, so the log is NOT emitted before the wrapped interceptor's
produced handler executes. -/
theorem logging_order_counterexample :
    (probeLogged.Middleware idHandler () emptyResp).trace
        = ["wrapped-handler-ran", "Executing middleware: n"]
    ∧ (probeLogged.Middleware idHandler () emptyResp).trace
        ≠ ["Executing middleware: n", "wrapped-handler-ran"] := by
  constructor
  · rfl
  · decide

/-- Claim C7 amended: the adapter hands the wrapped interceptor an inner
handler that logs `"Executing middleware: <name>"` and then runs the
downstream handler.  Hence for any wrapped interceptor that performs a
pre-transform `f` and then delegates exactly once, each request produces
exactly one log record, emitted after the wrapped interceptor's
pre-processing and immediately before the downstream handler executes;
the adapter alters nothing else in the response. -/
theorem logging_adapter_amended {Req : Type} (f : Req → RespState → RespState)
    (name : String) (h : Handler Req) (r : Req) (st : RespState) :
    MiddlewareFuncWithLogging.Middleware ⟨fun next rq s => next rq (f rq s), name⟩ h r st
      = h r { f r st with trace := (f r st).trace ++ ["Executing middleware: " ++ name] } :=
  rfl

/-- Claim C8: the aggregation consults the router's route list as it
stands at request time, so a route registered after the middleware was
constructed still participates: appending an included route extends the
aggregate by exactly its methods, and the middleware handler dispatches
on the updated router. -/
theorem CORSMethodMiddleware_sees_later_routes {Req : Type} (r : Router Req)
    (rt : Route Req) (req : Req) (ms0 ms : List String)
    (h0 : getAllMethodsForRoute r req = .ok ms0)
    (hinc : routeIncluded rt req = true)
    (hm : rt.getMethods = .ok ms) :
    getAllMethodsForRoute (registerRoute r rt) req = .ok (ms0 ++ ms)
    ∧ ∀ (next : Handler Req) (st : RespState),
        CORSMethodMiddleware (registerRoute r rt) next req st
          = next req (corsSetHeaders (registerRoute r rt) req st) := by
  refine ⟨?_, fun next st => rfl⟩
  have happ := getAllMethodsLoop_append req r.routes [rt] []
  simp only [getAllMethodsForRoute] at h0 ⊢
  simp [registerRoute, happ, h0, getAllMethodsLoop, hinc, hm]

/-- Witness for C8: registering `\x7b/x, [DELETE]\x7d` on the scenario
router after the fact makes `OPTIONS /x` aggregate
`["GET", "OPTIONS", "POST", "DELETE"]`. -/
theorem CORSMethodMiddleware_sees_later_routes_witness :
    getAllMethodsForRoute (registerRoute routerX routeDeleteX) reqOptionsX
      = .ok ["GET", "OPTIONS", "POST", "DELETE"] :=
  (CORSMethodMiddleware_sees_later_routes routerX routeDeleteX reqOptionsX
    ["GET", "OPTIONS", "POST"] ["DELETE"] rfl (by decide) rfl).1

/-- Claim C9: against a router with an empty route list, aggregation
returns the empty method list and no error, the header phase changes
nothing, and the middleware passes the request to `next` with the
response state untouched (so `Access-Control-Allow-Methods` is never
set). -/
theorem empty_router_no_header {Req : Type} (r : Router Req) (req : Req)
    (h : r.routes = []) :
    getAllMethodsForRoute r req = .ok []
    ∧ (∀ st, corsSetHeaders r req st = st)
    ∧ (∀ (next : Handler Req) (st : RespState),
        CORSMethodMiddleware r next req st = next req st) := by
  have hagg : getAllMethodsForRoute r req = .ok ([] : List String) := by
    simp [getAllMethodsForRoute, h, getAllMethodsLoop]
  refine ⟨hagg, fun st => ?_, fun next st => ?_⟩
  · simp [corsSetHeaders, hagg]
  · simp [CORSMethodMiddleware, corsSetHeaders, hagg]

/-- Witness for C9: the concrete empty router. -/
theorem empty_router_no_header_witness :
    getAllMethodsForRoute emptyRouter reqOptionsX = .ok []
    ∧ corsSetHeaders emptyRouter reqOptionsX emptyResp = emptyResp := by
  have h := empty_router_no_header emptyRouter reqOptionsX rfl
  exact ⟨h.1, h.2.1 emptyResp⟩

/-- Claim C10: the only response-state modification the CORS middleware
itself performs is possibly setting `Access-Control-Allow-Methods`: the
handler is one call of `next` on the same request, the header phase
preserves the trace, and every header other than
`Access-Control-Allow-Methods` reads exactly as it did before. -/
theorem CORSMethodMiddleware_frame {Req : Type} (r : Router Req) (next : Handler Req)
    (req : Req) (st : RespState) :
    CORSMethodMiddleware r next req st = next req (corsSetHeaders r req st)
    ∧ (corsSetHeaders r req st).trace = st.trace
    ∧ ∀ k, k ≠ "Access-Control-Allow-Methods" →
        getHeader (corsSetHeaders r req st).headers k = getHeader st.headers k := by
  refine ⟨rfl, ?_, ?_⟩
  · cases hagg : getAllMethodsForRoute r req with
    | ok ms => simp [corsSetHeaders, hagg, corsFold_trace]
    | error e => simp [corsSetHeaders, hagg]
  · intro k hk
    cases hagg : getAllMethodsForRoute r req with
    | ok ms => simp [corsSetHeaders, hagg, corsFold_frame _ ms st k hk]
    | error e => simp [corsSetHeaders, hagg]

/-- Witness for C10: a pre-existing unrelated header `X-Other` survives
the header phase of the scenario router unchanged. -/
theorem CORSMethodMiddleware_frame_witness :
    getHeader (corsSetHeaders routerX reqOptionsX
        { headers := [("X-Other", "1")], trace := [] }).headers "X-Other" = some "1" := by
  have h := (CORSMethodMiddleware_frame routerX idHandlerT reqOptionsX
      { headers := [("X-Other", "1")], trace := [] }).2.2 "X-Other" (by decide)
  rw [h]
  rfl

end Mux
